import Mathlib

/-!
Verification of the NOFX deployment scripts (`upload_to_supabase.py` and
`deploy_automation.py`) against their natural-language specification.

The Python code is shallowly embedded: HTTP requests are modelled by an
environment `Env` that maps each request to its result (a response with a
status code and body text, or a raised exception with a message); the
filesystem traversal `dist_path.rglob` is modelled by an explicit list of
entries in traversal order; the remote object store is a map from keys to
optional contents.  Every function mirrors the corresponding Python
function line by line.
-/

namespace Upload

/-- Result of one HTTP request as seen by the Python `requests` caller:
either a response carrying a status code and the decoded body text, or an
exception carrying its message. -/
inductive ReqResult where
  | resp (status : Nat) (text : String)
  | exc (msg : String)
deriving DecidableEq

/-- A network operation issued by the script, for tracing which requests
are made and in which order. -/
inductive NetOp where
  | createBucket
  | deleteObj (key : String)
  | postObj (key : String)
deriving DecidableEq

/-- The ambient network environment: what each request returns.
`deleteRes` is the result of `requests.delete` on an object key,
`postRes` the result of `requests.post` of the file body to a key, and
`bucketRes` the result of the bucket-creation POST. -/
structure Env where
  deleteRes : String → ReqResult
  postRes : String → ReqResult
  bucketRes : ReqResult

/-- Console-visible outcome of `create_bucket`: it only prints; nothing is
fatal and nothing is returned to the caller. -/
inductive BucketLog where
  | created
  | alreadyExists
  | warnStatus (status : Nat)
  | warnExc (msg : String)
deriving DecidableEq

/-- Embedding of `create_bucket` (upload_to_supabase.py lines 17-42): POST the bucket
request; 200/201 prints success, 409 prints "already exists", any other
status prints a warning, an exception prints a warning.  It never raises
and never halts the run. -/
def create_bucket (env : Env) : BucketLog × List NetOp :=
  (match env.bucketRes with
   | .resp s _ =>
       if s = 200 ∨ s = 201 then .created
       else if s = 409 then .alreadyExists
       else .warnStatus s
   | .exc m => .warnExc m,
   [NetOp.createBucket])

/-- Embedding of `delete_file` (lines 44-55): issue `requests.delete` on the key and
ignore everything — the response is discarded and any exception is
swallowed by `except: pass`.  Only the issued operation is observable. -/
def delete_file (env : Env) (file_path : String) : List NetOp :=
  match env.deleteRes file_path with
  | .resp _ _ => [NetOp.deleteObj file_path]
  | .exc _ => [NetOp.deleteObj file_path]

/-- Embedding of `upload_file` (lines 57-84): first `delete_file remote_path`, then
POST the file body.  Status 200 or 201 yields `(true, none)`; any other
status yields `(false, some "HTTP <status>: <first 100 chars of body>")`;
an exception yields `(false, some msg)`.  The pair is returned together
with the trace of network operations issued. -/
def upload_file (env : Env) (local_path remote_path : String) :
    (Bool × Option String) × List NetOp :=
  let delTrace := delete_file env remote_path
  let _ := local_path
  match env.postRes remote_path with
  | .resp s t =>
      if s = 200 ∨ s = 201 then
        ((true, none), delTrace ++ [NetOp.postObj remote_path])
      else
        ((false, some ("HTTP " ++ toString s ++ ": " ++ t.take 100)),
          delTrace ++ [NetOp.postObj remote_path])
  | .exc m => ((false, some m), delTrace ++ [NetOp.postObj remote_path])

/-- One filesystem entry produced by `dist_path.rglob('*')`, in traversal
order: its path relative to the root as a list of components, whether it
is a regular file, and (for files) its content. -/
structure Entry where
  relPath : List String
  isFile : Bool
  content : String

/-- Join path components with the platform separator character, as
`str(relative_path)` does. -/
def joinSep (sep : Char) : List String → String
  | [] => ""
  | [c] => c
  | c :: rest => c ++ String.singleton sep ++ joinSep sep rest

/-- Python `s.replace('\\', '/')` for a one-character pattern: map every
backslash to a forward slash. -/
def pyReplaceBackslash (s : String) : String :=
  String.mk (s.toList.map fun c => if c = '\\' then '/' else c)

/-- The remote key derived for an entry (lines 99-100):
`str(relative_path).replace('\\', '/')`. -/
def remoteKey (sep : Char) (e : Entry) : String :=
  pyReplaceBackslash (joinSep sep e.relPath)

/-- The remote object store: each key holds at most one object content. -/
def Store := String → Option String

/-- Whether the POST of a file body to `key` succeeds (status 200 or 201)
in environment `env`.  This is exactly the success condition tested by
`upload_file`. -/
def postSucceeds (env : Env) (key : String) : Bool :=
  match env.postRes key with
  | .resp s _ => s = 200 ∨ s = 201
  | .exc _ => false

/-- Server-side effect of one `upload_file` call on the store: the delete
removes whatever object was at the key, and the POST then writes the new
content exactly when it succeeds. -/
def applyUpload (env : Env) (σ : Store) (key content : String) : Store :=
  fun k => if k = key then (if postSucceeds env key then some content else none) else σ k

/-- Embedding of `upload_directory` (lines 86-113): walk the entries in traversal
order; for each regular file compute its remote key, call `upload_file`,
and count the outcome as uploaded or failed.  Also threads the trace of
network operations and the server-side store. -/
def upload_directory (env : Env) (sep : Char) :
    List Entry → Store → (Nat × Nat) × List NetOp × Store
  | [], σ => ((0, 0), [], σ)
  | e :: rest, σ =>
      if e.isFile then
        let key := remoteKey sep e
        let r := upload_file env (joinSep sep e.relPath) key
        let σ' := applyUpload env σ key e.content
        let recRes := upload_directory env sep rest σ'
        ((if r.1.1 then recRes.1.1 + 1 else recRes.1.1,
          if r.1.1 then recRes.1.2 else recRes.1.2 + 1),
         r.2 ++ recRes.2.1, recRes.2.2)
      else upload_directory env sep rest σ

/-- Observable result of one run of `main` (lines 115-149). -/
structure RunResult where
  exitCode : Int
  missingRootReported : Bool
  bucketLog : BucketLog
  netOps : List NetOp
  store : Store

/-- Embedding of `main` (lines 115-149): first `create_bucket()`, then check that the
dist directory exists — if not, print the error and return 1 — otherwise
run `upload_directory` and return 0 exactly when no file failed.
`root = none` models a missing dist directory; `root = some entries`
models an existing one with the given traversal. -/
def mainRun (env : Env) (sep : Char) (root : Option (List Entry)) (σ : Store) : RunResult :=
  let bucket := create_bucket env
  match root with
  | none =>
      { exitCode := 1, missingRootReported := true, bucketLog := bucket.1,
        netOps := bucket.2, store := σ }
  | some entries =>
      let r := upload_directory env sep entries σ
      { exitCode := if r.1.2 = 0 then 0 else 1, missingRootReported := false,
        bucketLog := bucket.1, netOps := bucket.2 ++ r.2.1, store := r.2.2 }

/-- A concrete environment: every object POST returns the given status
and body text; deletes and the bucket POST return plain 200 responses. -/
def envHttp (s : Nat) (t : String) : Env :=
  { deleteRes := fun _ => .resp 200 ""
    postRes := fun _ => .resp s t
    bucketRes := .resp 200 "" }

/-- A concrete environment: every object POST raises an exception with
the given message. -/
def envExc (m : String) : Env :=
  { deleteRes := fun _ => .resp 200 ""
    postRes := fun _ => .exc m
    bucketRes := .resp 200 "" }

/-- A concrete environment: every delete raises an exception, while every
POST returns a plain 200 response. -/
def envDelExc : Env :=
  { deleteRes := fun _ => .exc "connection reset"
    postRes := fun _ => .resp 200 ""
    bucketRes := .resp 200 "" }

/-- A concrete environment: the bucket POST returns the given status,
object requests return plain 200 responses. -/
def envBucket (s : Nat) : Env :=
  { deleteRes := fun _ => .resp 200 ""
    postRes := fun _ => .resp 200 ""
    bucketRes := .resp s "" }

end Upload

namespace Deploy

/-- The ambient environment of `deploy_automation.py`: which environment
variables are set and which external commands succeed.  `cpOk` gives the
outcome of the `supabase storage cp` command for each file path walked. -/
structure DeployEnv where
  zeaburToken : Option String
  supabaseToken : Option String
  cliInstalled : Bool
  cliInstallOk : Bool
  npmInstallOk : Bool
  npmBuildOk : Bool
  distExists : Bool
  distFiles : List String
  cpOk : String → Bool

/-- Embedding of `install_zeabur_cli` (deploy_automation.py lines 57-78): true when
`which zeabur` succeeds or the install script succeeds. -/
def install_zeabur_cli (env : DeployEnv) : Bool :=
  if env.cliInstalled then true else env.cliInstallOk

/-- Embedding of `build_frontend` (lines 80-101): `npm install` then `npm run build`;
false as soon as either fails. -/
def build_frontend (env : DeployEnv) : Bool :=
  if ¬ env.npmInstallOk then false
  else if ¬ env.npmBuildOk then false
  else true

/-- Embedding of `deploy_to_zeabur` (lines 103-124): with no `ZEABUR_TOKEN` it returns
`(False, None)`; with a token it runs some git commands, prints that the
deployment must be done manually, and still returns `(False, None)`. -/
def deploy_to_zeabur (env : DeployEnv) : Bool × Option String :=
  match env.zeaburToken with
  | none => (false, none)
  | some _ => (false, none)

/-- Embedding of `deploy_frontend_to_supabase` (lines 126-170): false when
`SUPABASE_ACCESS_TOKEN` is unset or the dist directory is missing;
otherwise it walks the dist tree, copies each file (counting successes but
ignoring failures), and returns true unconditionally at the end. -/
def deploy_frontend_to_supabase (env : DeployEnv) : Bool :=
  match env.supabaseToken with
  | none => false
  | some _ =>
      if ¬ env.distExists then false
      else
        let _ := (env.distFiles.filter env.cpOk).length
        true

/-- Embedding of `main` (lines 172-223): install the CLI (failure only warns), build
the frontend (failure aborts with exit 1), then attempt backend and
frontend deployment and return 0 iff either succeeded. -/
def deployMain (env : DeployEnv) : Int :=
  let _ := install_zeabur_cli env
  if ¬ build_frontend env then 1
  else
    let backend := deploy_to_zeabur env
    let frontend := deploy_frontend_to_supabase env
    if frontend ∨ backend.1 then 0 else 1

end Deploy

namespace Upload

/-- C1: for every directory tree, `upload_directory` produces exactly one
outcome per regular file: the returned `uploaded + failed` equals the
number of regular-file entries enumerated under the root. -/
theorem upload_directory_counts_files (env : Env) (sep : Char)
    (entries : List Entry) (σ : Store) :
    (upload_directory env sep entries σ).1.1 + (upload_directory env sep entries σ).1.2 =
      (entries.filter fun e => e.isFile).length := by
  induction entries generalizing σ with
  | nil => simp [upload_directory]
  | cons e rest ih =>
      by_cases hf : e.isFile
      · cases hb : (upload_file env (joinSep sep e.relPath) (remoteKey sep e)).1.1 with
        | true =>
            simp only [upload_directory, hf, if_true, hb, List.filter_cons_of_pos,
              List.length_cons]
            rw [Nat.succ_add]
            exact congrArg Nat.succ (ih _)
        | false =>
            simp only [upload_directory, hf, if_true, hb, if_false,
              List.filter_cons_of_pos, List.length_cons]
            rw [Nat.add_succ]
            exact congrArg Nat.succ (ih _)
      · have hf' : e.isFile = false := by simpa using hf
        have hskip : upload_directory env sep (e :: rest) σ =
            upload_directory env sep rest σ := by
          simp [upload_directory, hf']
        rw [hskip, ih σ]
        simp [hf']

/-- C4: for a run that reaches the traversal (the dist directory exists),
the process exit code is 0 exactly when the count of failed uploads is
zero, hence non-zero when at least one upload failed. -/
theorem exit_code_zero_iff_no_failures (env : Env) (sep : Char)
    (entries : List Entry) (σ : Store) :
    (mainRun env sep (some entries) σ).exitCode = 0 ↔
      (upload_directory env sep entries σ).1.2 = 0 := by
  by_cases h : (upload_directory env sep entries σ).1.2 = 0 <;> simp [mainRun, h]

end Upload

namespace Deploy

end Deploy

namespace Upload

/-- String concatenation is associative, via the underlying character
lists. -/
theorem str_append_assoc (a b c : String) : a ++ b ++ c = a ++ (b ++ c) := by
  cases a with | mk la =>
  cases b with | mk lb =>
  cases c with | mk lc =>
  show String.mk (la ++ lb ++ lc) = String.mk (la ++ (lb ++ lc))
  rw [List.append_assoc]

/-- C3 counterexample: HTTP 204 is a 2xx status, yet `upload_file`
returns a Failed outcome for it, so "Succeeded iff the status is any
2xx" is false on the code, which accepts only 200 and 201. -/
theorem upload_file_204_fails :
    200 ≤ 204 ∧ 204 < 300 ∧
      (upload_file (envHttp 204 "No Content") "f" "k").1.1 = false := by
  refine ⟨by norm_num, by norm_num, ?_⟩
  rfl

/-- C3 amended: `upload_file` returns Succeeded iff the POST status is
exactly 200 or 201; any other status yields Failed with reason
`"HTTP <status>: "` followed by the body truncated to its first 100
characters — in particular a 500 response yields a Failed reason
containing `"500"`; and 2xx statuses other than 200/201 also fail. -/
theorem upload_file_success_iff_200_or_201 (env : Env) (lp key : String)
    (s : Nat) (t : String) (hres : env.postRes key = .resp s t) :
    ((upload_file env lp key).1.1 = true ↔ (s = 200 ∨ s = 201)) ∧
    (¬ (s = 200 ∨ s = 201) →
      (upload_file env lp key).1.2 =
        some ("HTTP " ++ toString s ++ ": " ++ t.take 100)) ∧
    (s = 500 → ∃ before after : String,
      (upload_file env lp key).1.2 = some (before ++ "500" ++ after)) := by
  by_cases hs : s = 200 ∨ s = 201
  · refine ⟨?_, fun h => absurd hs h, fun h500 => ?_⟩
    · simp [upload_file, hres, hs]
    · rcases hs with h | h <;> omega
  · have hfail : (upload_file env lp key).1.2 =
        some ("HTTP " ++ toString s ++ ": " ++ t.take 100) := by
      simp [upload_file, hres, hs]
    refine ⟨?_, fun _ => hfail, fun h500 => ?_⟩
    · simp [upload_file, hres, hs]
    · refine ⟨"HTTP ", ": " ++ t.take 100, ?_⟩
      rw [hfail, h500]
      rw [show (toString (500 : Nat)) = "500" from rfl]
      rw [str_append_assoc]

/-- C3 amended, witness at a concrete 500 response. -/
theorem upload_file_success_iff_200_or_201_witness :
    (envHttp 500 "Internal Server Error").postRes "k" =
        ReqResult.resp 500 "Internal Server Error" ∧
    (((upload_file (envHttp 500 "Internal Server Error") "f" "k").1.1 = true ↔
        ((500 : Nat) = 200 ∨ (500 : Nat) = 201)) ∧
      (¬ ((500 : Nat) = 200 ∨ (500 : Nat) = 201) →
        (upload_file (envHttp 500 "Internal Server Error") "f" "k").1.2 =
          some ("HTTP " ++ toString (500 : Nat) ++ ": " ++
            ("Internal Server Error" : String).take 100)) ∧
      ((500 : Nat) = 500 → ∃ before after : String,
        (upload_file (envHttp 500 "Internal Server Error") "f" "k").1.2 =
          some (before ++ "500" ++ after))) :=
  ⟨rfl, upload_file_success_iff_200_or_201 (envHttp 500 "Internal Server Error")
    "f" "k" 500 "Internal Server Error" rfl⟩

/-- The function `delete_file` issues exactly the delete operation, whatever the
request returns. -/
theorem delete_file_eq (env : Env) (key : String) :
    delete_file env key = [NetOp.deleteObj key] := by
  unfold delete_file
  cases env.deleteRes key <;> rfl

/-- C6: a transport exception raised during one file's upload is caught
inside `upload_file` and converted to a Failed outcome whose reason is
the exception's message, and the traversal continues with the remaining
files: the run's counts are that file's failure plus the counts over the
rest. -/
theorem exception_caught_traversal_continues (env : Env) (sep : Char)
    (e : Entry) (rest : List Entry) (σ : Store) (m : String)
    (hf : e.isFile = true)
    (hexc : env.postRes (remoteKey sep e) = .exc m) :
    (upload_file env (joinSep sep e.relPath) (remoteKey sep e)).1 = (false, some m) ∧
    (upload_directory env sep (e :: rest) σ).1.1 =
      (upload_directory env sep rest
        (applyUpload env σ (remoteKey sep e) e.content)).1.1 ∧
    (upload_directory env sep (e :: rest) σ).1.2 =
      (upload_directory env sep rest
        (applyUpload env σ (remoteKey sep e) e.content)).1.2 + 1 := by
  have h1 : (upload_file env (joinSep sep e.relPath) (remoteKey sep e)).1 =
      (false, some m) := by
    simp [upload_file, hexc]
  have hb : (upload_file env (joinSep sep e.relPath) (remoteKey sep e)).1.1 = false := by
    rw [h1]
  refine ⟨h1, ?_, ?_⟩ <;> simp [upload_directory, hf, hb]

/-- C6 witness: a concrete one-file traversal whose POST raises. -/
theorem exception_caught_traversal_continues_witness :
    (⟨["index.html"], true, "hello"⟩ : Entry).isFile = true ∧
    (envExc "Connection refused").postRes
        (remoteKey '/' ⟨["index.html"], true, "hello"⟩) =
      ReqResult.exc "Connection refused" ∧
    (upload_directory (envExc "Connection refused") '/'
        [⟨["index.html"], true, "hello"⟩] (fun _ => none)).1.2 =
      (upload_directory (envExc "Connection refused") '/' []
        (applyUpload (envExc "Connection refused") (fun _ => none)
          (remoteKey '/' ⟨["index.html"], true, "hello"⟩) "hello")).1.2 + 1 :=
  ⟨rfl, rfl,
    (exception_caught_traversal_continues (envExc "Connection refused") '/'
      ⟨["index.html"], true, "hello"⟩ [] (fun _ => none) "Connection refused"
      rfl rfl).2.2⟩

/-- C8: `upload_file` issues the delete for the remote key first, before
the POST, and the delete's result — a response of any status or a raised
exception — never affects the upload's outcome. -/
theorem upload_delete_first_and_ignored (env₁ env₂ : Env) (lp key : String)
    (hpost : env₁.postRes key = env₂.postRes key) :
    (upload_file env₁ lp key).2 = [NetOp.deleteObj key, NetOp.postObj key] ∧
    (upload_file env₁ lp key).1 = (upload_file env₂ lp key).1 := by
  constructor
  · cases h : env₁.postRes key with
    | resp s t =>
        by_cases hs : s = 200 ∨ s = 201 <;>
          simp [upload_file, delete_file_eq, h, hs]
    | exc m => simp [upload_file, delete_file_eq, h]
  · cases h : env₂.postRes key with
    | resp s t =>
        by_cases hs : s = 200 ∨ s = 201 <;>
          simp [upload_file, delete_file_eq, hpost, h, hs]
    | exc m => simp [upload_file, delete_file_eq, hpost, h]

/-- C8 witness: two concrete environments agreeing on the POST result but
with the delete succeeding in one and raising in the other. -/
theorem upload_delete_first_and_ignored_witness :
    (envHttp 200 "").postRes "k" = envDelExc.postRes "k" ∧
    (upload_file (envHttp 200 "") "f" "k").2 =
      [NetOp.deleteObj "k", NetOp.postObj "k"] ∧
    (upload_file (envHttp 200 "") "f" "k").1 = (upload_file envDelExc "f" "k").1 :=
  ⟨rfl,
    (upload_delete_first_and_ignored (envHttp 200 "") envDelExc "f" "k" rfl).1,
    (upload_delete_first_and_ignored (envHttp 200 "") envDelExc "f" "k" rfl).2⟩

/-- C2 counterexample: with the dist directory missing, the program still
makes a network call — the bucket-creation POST is issued by `main`
before the existence check — so "makes no network calls at all" is false
on the code. -/
theorem missing_root_still_calls_network :
    (mainRun (envHttp 200 "") '/' none (fun _ => none)).netOps =
      [NetOp.createBucket] ∧
    (mainRun (envHttp 200 "") '/' none (fun _ => none)).netOps ≠
      ([] : List NetOp) := by
  have h : (mainRun (envHttp 200 "") '/' none (fun _ => none)).netOps =
      [NetOp.createBucket] := rfl
  refine ⟨h, ?_⟩
  rw [h]
  simp

/-- C2 amended: if the dist directory does not exist, the program reports
the missing-root precondition error and exits non-zero, performing no
traversal and no per-object network operation; however the
bucket-creation POST has already been issued before the existence check,
so exactly that one network call is made. -/
theorem missing_root_reports_and_exits (env : Env) (sep : Char) (σ : Store) :
    (mainRun env sep none σ).exitCode = 1 ∧
    (mainRun env sep none σ).missingRootReported = true ∧
    (mainRun env sep none σ).netOps = [NetOp.createBucket] :=
  ⟨rfl, rfl, rfl⟩

/-- The function `upload_file` reads only the object-request fields of the
environment, never the bucket field. -/
theorem upload_file_congr (env₁ env₂ : Env) (lp key : String)
    (hpost : env₁.postRes = env₂.postRes) :
    upload_file env₁ lp key = upload_file env₂ lp key := by
  simp [upload_file, delete_file_eq, hpost]

/-- The function `applyUpload` reads only the POST result of the environment. -/
theorem applyUpload_congr (env₁ env₂ : Env) (σ : Store) (key content : String)
    (hpost : env₁.postRes = env₂.postRes) :
    applyUpload env₁ σ key content = applyUpload env₂ σ key content := by
  funext k
  simp [applyUpload, postSucceeds, hpost]

/-- The whole traversal reads only the object-request fields of the
environment, never the bucket field. -/
theorem upload_directory_congr (env₁ env₂ : Env) (sep : Char)
    (hpost : env₁.postRes = env₂.postRes) (entries : List Entry) (σ : Store) :
    upload_directory env₁ sep entries σ = upload_directory env₂ sep entries σ := by
  induction entries generalizing σ with
  | nil => rfl
  | cons e rest ih =>
      by_cases hf : e.isFile
      · simp only [upload_directory, hf, if_true,
          upload_file_congr env₁ env₂ _ _ hpost,
          applyUpload_congr env₁ env₂ _ _ _ hpost, ih]
      · have hf' : e.isFile = false := by simpa using hf
        simp only [upload_directory, hf', Bool.false_eq_true, if_false, ih]

/-- C9: a 409 from the bucket-creation POST is logged as "already
exists" — not as a warning and not as anything fatal — and the run
proceeds to the upload traversal; any other non-success status is logged
as a warning and likewise never halts the run: the exit code does not
depend on the bucket response at all, and the per-object operations are
still performed after the bucket call. -/
theorem bucket_409_not_fatal (env : Env) (sep : Char) (entries : List Entry)
    (σ : Store) (t : String) (hb : env.bucketRes = .resp 409 t) :
    (create_bucket env).1 = BucketLog.alreadyExists ∧
    (∀ s t2, s ≠ 200 → s ≠ 201 → s ≠ 409 →
      (create_bucket { env with bucketRes := .resp s t2 }).1 =
        BucketLog.warnStatus s) ∧
    (∀ br : ReqResult,
      (mainRun { env with bucketRes := br } sep (some entries) σ).exitCode =
        (mainRun env sep (some entries) σ).exitCode) ∧
    (mainRun env sep (some entries) σ).netOps =
      NetOp.createBucket :: (upload_directory env sep entries σ).2.1 := by
  refine ⟨?_, ?_, ?_, ?_⟩
  · simp [create_bucket, hb]
  · intro s t2 h200 h201 h409
    simp [create_bucket, h200, h201, h409]
  · intro br
    have hcongr := upload_directory_congr { env with bucketRes := br } env sep rfl
      entries σ
    simp [mainRun, hcongr]
  · rfl

/-- C9 witness: a concrete 409 bucket response, and a concrete 500 bucket
response for the warning branch. -/
theorem bucket_409_not_fatal_witness :
    (envBucket 409).bucketRes = ReqResult.resp 409 "" ∧
    (create_bucket (envBucket 409)).1 = BucketLog.alreadyExists ∧
    (create_bucket { envBucket 409 with bucketRes := .resp 500 "" }).1 =
      BucketLog.warnStatus 500 ∧
    (mainRun (envBucket 409) '/' (some []) (fun _ => none)).netOps =
      NetOp.createBucket ::
        (upload_directory (envBucket 409) '/' [] (fun _ => none)).2.1 :=
  ⟨rfl,
   (bucket_409_not_fatal (envBucket 409) '/' [] (fun _ => none) "" rfl).1,
   (bucket_409_not_fatal (envBucket 409) '/' [] (fun _ => none) "" rfl).2.1
     500 "" (by decide) (by decide) (by decide),
   (bucket_409_not_fatal (envBucket 409) '/' [] (fun _ => none) "" rfl).2.2.2⟩

/-- Mapping backslashes to slashes is the identity on a backslash-free
character list. -/
theorem replace_map_id (l : List Char) (h : ∀ ch ∈ l, ch ≠ '\\') :
    (l.map fun c => if c = '\\' then '/' else c) = l := by
  induction l with
  | nil => rfl
  | cons c cs ih =>
      have hc : c ≠ '\\' := h c (List.mem_cons_self c cs)
      have hcs : ∀ ch ∈ cs, ch ≠ '\\' := fun ch hch => h ch (List.mem_cons_of_mem c hch)
      simp only [List.map_cons, if_neg hc, ih hcs]

/-- The output of `pyReplaceBackslash` never contains a backslash. -/
theorem pyReplaceBackslash_no_backslash (s : String) :
    ∀ ch ∈ (pyReplaceBackslash s).toList, ch ≠ '\\' := by
  intro ch hch
  have hm : ch ∈ s.toList.map fun c => if c = '\\' then '/' else c := hch
  rcases List.mem_map.mp hm with ⟨c, _, hc⟩
  subst hc
  by_cases h : c = '\\' <;> simp [h]

/-- The function `pyReplaceBackslash` distributes over string concatenation. -/
theorem pyReplaceBackslash_append (a b : String) :
    pyReplaceBackslash (a ++ b) = pyReplaceBackslash a ++ pyReplaceBackslash b := by
  cases a with | mk la =>
  cases b with | mk lb =>
  show String.mk ((la ++ lb).map _) = String.mk (la.map _ ++ lb.map _)
  rw [List.map_append]

/-- The function `pyReplaceBackslash` is the identity on a backslash-free string. -/
theorem pyReplaceBackslash_id (s : String)
    (h : ∀ ch ∈ s.toList, ch ≠ '\\') : pyReplaceBackslash s = s := by
  cases s with | mk l =>
  exact congrArg String.mk (replace_map_id l h)

/-- C7: for path components free of backslashes, joined by the platform
separator (`/` on POSIX, `\\` on Windows), the derived remote key is the
components joined by `/`; and whatever the input, the key never contains
a backslash. -/
theorem remote_key_posix (sep : Char) (comps : List String)
    (hsep : sep = '/' ∨ sep = '\\')
    (hcomp : ∀ c ∈ comps, ∀ ch ∈ c.toList, ch ≠ '\\') :
    pyReplaceBackslash (joinSep sep comps) = joinSep '/' comps ∧
    ∀ ch ∈ (pyReplaceBackslash (joinSep sep comps)).toList, ch ≠ '\\' := by
  refine ⟨?_, pyReplaceBackslash_no_backslash _⟩
  induction comps with
  | nil => rfl
  | cons c rest ih =>
      cases rest with
      | nil => exact pyReplaceBackslash_id c (hcomp c (by simp))
      | cons c2 rest2 =>
          have hc : ∀ ch ∈ c.toList, ch ≠ '\\' := hcomp c (by simp)
          have hrest : ∀ x ∈ c2 :: rest2, ∀ ch ∈ x.toList, ch ≠ '\\' := by
            intro x hx
            exact hcomp x (by simp [hx])
          have hsingle : pyReplaceBackslash (String.singleton sep) =
              String.singleton '/' := by
            rcases hsep with h | h <;> subst h <;> decide
          calc pyReplaceBackslash (joinSep sep (c :: c2 :: rest2))
              = pyReplaceBackslash (c ++ String.singleton sep) ++
                  pyReplaceBackslash (joinSep sep (c2 :: rest2)) :=
                pyReplaceBackslash_append _ _
            _ = pyReplaceBackslash c ++ pyReplaceBackslash (String.singleton sep) ++
                  pyReplaceBackslash (joinSep sep (c2 :: rest2)) := by
                rw [pyReplaceBackslash_append]
            _ = c ++ String.singleton '/' ++ joinSep '/' (c2 :: rest2) := by
                rw [pyReplaceBackslash_id c hc, hsingle, ih hrest]
            _ = joinSep '/' (c :: c2 :: rest2) := rfl

/-- C7 witness: the Windows separator on the `assets\app.js` example. -/
theorem remote_key_posix_witness :
    (('\\' : Char) = '/' ∨ ('\\' : Char) = '\\') ∧
    (∀ c ∈ ["assets", "app.js"], ∀ ch ∈ c.toList, ch ≠ '\\') ∧
    pyReplaceBackslash (joinSep '\\' ["assets", "app.js"]) =
      joinSep '/' ["assets", "app.js"] ∧
    ∀ ch ∈ (pyReplaceBackslash (joinSep '\\' ["assets", "app.js"])).toList,
      ch ≠ '\\' :=
  ⟨Or.inr rfl, by decide,
   (remote_key_posix '\\' ["assets", "app.js"] (Or.inr rfl) (by decide)).1,
   (remote_key_posix '\\' ["assets", "app.js"] (Or.inr rfl) (by decide)).2⟩

/-- Store component of the traversal over a regular-file head entry. -/
theorem store_cons_file (env : Env) (sep : Char) (e : Entry) (rest : List Entry)
    (σ : Store) (hf : e.isFile = true) :
    (upload_directory env sep (e :: rest) σ).2.2 =
      (upload_directory env sep rest
        (applyUpload env σ (remoteKey sep e) e.content)).2.2 := by
  simp [upload_directory, hf]

/-- Store component of the traversal over a non-file head entry. -/
theorem store_cons_skip (env : Env) (sep : Char) (e : Entry) (rest : List Entry)
    (σ : Store) (hf : e.isFile = false) :
    (upload_directory env sep (e :: rest) σ).2.2 =
      (upload_directory env sep rest σ).2.2 := by
  simp [upload_directory, hf]

/-- A key targeted by no file of the traversal keeps its prior value. -/
theorem store_untouched (env : Env) (sep : Char) (k : String) :
    ∀ (entries : List Entry) (σ : Store),
      (∀ e ∈ entries, e.isFile = true → remoteKey sep e ≠ k) →
      (upload_directory env sep entries σ).2.2 k = σ k := by
  intro entries
  induction entries with
  | nil => intro σ _; rfl
  | cons e rest ih =>
      intro σ h
      by_cases hf : e.isFile
      · rw [store_cons_file env sep e rest σ hf,
          ih _ (fun x hx => h x (List.mem_cons_of_mem e hx))]
        have hne : k ≠ remoteKey sep e := (h e (List.mem_cons_self e rest) hf).symm
        simp [applyUpload, hne]
      · have hf' : e.isFile = false := by simpa using hf
        rw [store_cons_skip env sep e rest σ hf']
        exact ih _ (fun x hx => h x (List.mem_cons_of_mem e hx))

/-- A key targeted by some file of the traversal ends with a value that
does not depend on the store the traversal started from: each upload
deletes the key before writing it. -/
theorem store_touched (env : Env) (sep : Char) (k : String) :
    ∀ (entries : List Entry),
      (∃ e ∈ entries, e.isFile = true ∧ remoteKey sep e = k) →
      ∀ σ₁ σ₂ : Store,
        (upload_directory env sep entries σ₁).2.2 k =
          (upload_directory env sep entries σ₂).2.2 k := by
  intro entries
  induction entries with
  | nil =>
      rintro ⟨e, he, -⟩
      simp at he
  | cons e rest ih =>
      rintro ⟨x, hx, hxfile, hxkey⟩ σ₁ σ₂
      by_cases hrest : ∃ y ∈ rest, y.isFile = true ∧ remoteKey sep y = k
      · by_cases hf : e.isFile
        · rw [store_cons_file env sep e rest σ₁ hf,
            store_cons_file env sep e rest σ₂ hf]
          exact ih hrest _ _
        · have hf' : e.isFile = false := by simpa using hf
          rw [store_cons_skip env sep e rest σ₁ hf',
            store_cons_skip env sep e rest σ₂ hf']
          exact ih hrest _ _
      · have hx' : x = e ∨ x ∈ rest := by simpa using hx
        have hee : e.isFile = true ∧ remoteKey sep e = k := by
          rcases hx' with rfl | hmem
          · exact ⟨hxfile, hxkey⟩
          · exact absurd ⟨x, hmem, hxfile, hxkey⟩ hrest
        have hru : ∀ y ∈ rest, y.isFile = true → remoteKey sep y ≠ k :=
          fun y hy hyf hyk => hrest ⟨y, hy, hyf, hyk⟩
        rw [store_cons_file env sep e rest σ₁ hee.1,
          store_cons_file env sep e rest σ₂ hee.1,
          store_untouched env sep k rest _ hru,
          store_untouched env sep k rest _ hru]
        simp [applyUpload, hee.2]

/-- C5: re-running the synchronizer over the same unchanged root against
the store produced by the first run leaves every key unchanged
(idempotence); and the value an upload leaves at its own key is
independent of whatever was stored there before, because the upload
deletes the key and then writes the new content exactly when the POST
succeeds. -/
theorem sync_twice_same_store (env : Env) (sep : Char) (entries : List Entry)
    (σ : Store) :
    (∀ k, (upload_directory env sep entries
        ((upload_directory env sep entries σ).2.2)).2.2 k =
      (upload_directory env sep entries σ).2.2 k) ∧
    (∀ (σ' : Store) (k content : String),
      applyUpload env σ' k content k =
        (if postSucceeds env k then some content else none)) := by
  constructor
  · intro k
    by_cases h : ∃ e ∈ entries, e.isFile = true ∧ remoteKey sep e = k
    · exact store_touched env sep k entries h _ _
    · have h' : ∀ e ∈ entries, e.isFile = true → remoteKey sep e ≠ k :=
        fun e he hef hek => h ⟨e, he, hef, hek⟩
      rw [store_untouched env sep k entries _ h']
  · intro σ' k content
    simp [applyUpload]

end Upload

namespace Deploy

/-- C10: `deploy_to_zeabur` returns `(False, None)` in every environment,
so the deploy script exits 0 exactly when the frontend path — the build
plus `deploy_frontend_to_supabase` — succeeds. -/
theorem deploy_to_zeabur_never_succeeds (env : DeployEnv) :
    deploy_to_zeabur env = (false, none) ∧
    (deployMain env = 0 ↔
      (build_frontend env = true ∧ deploy_frontend_to_supabase env = true)) := by
  have hz : deploy_to_zeabur env = (false, none) := by
    unfold deploy_to_zeabur
    cases env.zeaburToken <;> rfl
  refine ⟨hz, ?_⟩
  by_cases hb : build_frontend env
  · by_cases hfr : deploy_frontend_to_supabase env <;>
      simp [deployMain, hb, hfr, hz]
  · simp [deployMain, hb]

end Deploy
